import Mathlib

/-!
Shallow embedding of the jspcap/pcapkit protocol-decoding core.

The definitions below are translated from the repository sources:
  - `src/src/protocols/application/httpv1.py` (HTTP/1.x decoder),
  - `src/pcapkit/protocols/link/arp.py` (ARP family decoder),
  - `src/dev/jspcap/protocols/internet/internet.py` (internet-layer dispatch).

Byte payloads handled by the HTTP decoder are modelled as `List Char`
(the decoder only ever inspects ASCII bytes; `.decode()` is the identity on
this fragment).  Binary packets handled by the ARP decoder are modelled as
`List Nat` with each element a byte value.  Fallible Python code (exceptions)
is modelled with `Option`/`Except`.
-/

/-- ASCII whitespace recognised by the `\s` class of Python bytes regexes
(space, tab, newline, carriage return, vertical tab, form feed) and by
`bytes.strip` on this fragment. -/
def isSpace (c : Char) : Bool :=
  c == ' ' || c == '\t' || c == '\n' || c == '\r' || c == '\x0b' || c == '\x0c'

/-- Python's `s.split(sep, 1)` followed by unpacking into two variables:
splits `s` at the first occurrence of `sep`, returning `none` when `sep`
does not occur (the unpacking then raises `ValueError`). -/
def splitOnceAt (sep : List Char) : List Char → Option (List Char × List Char)
  | [] => if sep.isEmpty then some ([], []) else none
  | c :: cs =>
    if sep.isPrefixOf (c :: cs) && !sep.isEmpty then
      some ([], (c :: cs).drop sep.length)
    else
      (splitOnceAt sep cs).map (fun p => (c :: p.1, p.2))

/-- Python's `s.split(b'\r\n')` (no maxsplit): all fragments between
occurrences of CRLF, scanning left to right. -/
def splitCRLF : List Char → List (List Char)
  | '\r' :: '\n' :: rest => [] :: splitCRLF rest
  | c :: rest =>
    match splitCRLF rest with
    | g :: gs => (c :: g) :: gs
    | [] => [[c]]
  | [] => [[]]

/-- Whether `pat` occurs as a contiguous substring of `s`. -/
def containsSub (pat : List Char) : List Char → Bool
  | [] => pat.isEmpty
  | c :: cs => pat.isPrefixOf (c :: cs) || containsSub pat cs

/-- Python's `re.split(b'\s+', startline, 2)` followed by unpacking into
exactly three variables: `none` when fewer than three fields result
(the unpacking then raises `ValueError`).  The third field keeps any
whitespace it contains. -/
def splitWS2 (s : List Char) : Option (List Char × List Char × List Char) :=
  let p1 := s.takeWhile (fun c => !isSpace c)
  let r1 := s.dropWhile (fun c => !isSpace c)
  if r1.isEmpty then none
  else
    let r1w := r1.dropWhile isSpace
    let p2 := r1w.takeWhile (fun c => !isSpace c)
    let r2 := r1w.dropWhile (fun c => !isSpace c)
    if r2.isEmpty then none
    else
      some (p1, p2, r2.dropWhile isSpace)

/-- Python's `s.strip()`: drop leading and trailing whitespace. -/
def strip (s : List Char) : List Char :=
  ((s.dropWhile isSpace).reverse.dropWhile isSpace).reverse

/-- The eight request methods of `_RE_METHOD` in
`src/src/protocols/application/httpv1.py`. -/
def httpMethods : List (List Char) :=
  ["GET", "HEAD", "POST", "PUT", "DELETE", "CONNECT", "OPTIONS", "TRACE"].map
    String.toList

/-- Python's `re.match(_RE_METHOD, s)` viewed as a Bool: `re.match` anchors at
the start only, so this asks whether some method alternative is a prefix
of `s`. -/
def matchMethod (s : List Char) : Bool :=
  httpMethods.any (fun m => m.isPrefixOf s)

/-- Python's `re.match(_RE_VERSION, s)` where
`_RE_VERSION = HTTP/(?P<version>\d\.\d)`: when the pattern matches a prefix
of `s`, returns the captured `<d>.<d>` group. -/
def matchVersion : List Char → Option (List Char)
  | 'H' :: 'T' :: 'T' :: 'P' :: '/' :: d1 :: '.' :: d2 :: _ =>
    if d1.isDigit && d2.isDigit then some [d1, '.', d2] else none
  | _ => none

/-- Python's `re.match(_RE_STATUS, s)` where `_RE_STATUS = \d{3}` viewed as a
Bool: whether `s` starts with three ASCII digits. -/
def matchStatus : List Char → Bool
  | a :: b :: c :: _ => a.isDigit && b.isDigit && c.isDigit
  | _ => false

/-- Digit run accepted by Python's `int()` after the optional sign: decimal
digits with single underscores allowed between digits. -/
def pyDigitsGo : Nat → List Char → Option Nat
  | acc, [] => some acc
  | acc, '_' :: rest =>
    match rest with
    | d :: rest' =>
      if d.isDigit then pyDigitsGo (acc * 10 + (d.toNat - 48)) rest' else none
    | [] => none
  | acc, d :: rest =>
    if d.isDigit then pyDigitsGo (acc * 10 + (d.toNat - 48)) rest else none

/-- See `pyDigitsGo`; the run must start with a digit. -/
def pyDigits : List Char → Option Nat
  | [] => none
  | c :: cs => if c.isDigit then pyDigitsGo (c.toNat - 48) cs else none

/-- Python's `int(s)` on ASCII text: optional surrounding whitespace, optional
single sign, then a digit run.  `none` models the `ValueError` raised on any
other input (e.g. `int("200x")`). -/
def pyInt (s : List Char) : Option Int :=
  match strip s with
  | '+' :: rest => (pyDigits rest).map (fun n => (n : Int))
  | '-' :: rest => (pyDigits rest).map (fun n => -(n : Int))
  | rest => (pyDigits rest).map (fun n => (n : Int))

/-- Values stored in a decoded info dictionary (Python `dict` values in the
source): text, bytes, integers, nested dictionaries, tuples of values, and
`None`. -/
inductive Val where
  | str (s : String)
  | bytes (bs : List Char)
  | int (n : Int)
  | node (m : List (String × Val))
  | seq (vs : List Val)
  | null
deriving Repr

/-- Python dict lookup `m[k]` on an insertion-ordered dictionary modelled as
an association list. -/
def dictLookup : List (String × Val) → String → Option Val
  | [], _ => none
  | (k', v) :: rest, k => if k' == k then some v else dictLookup rest k

/-- Python dict assignment `m[k] = v`: updates in place when the key exists
(keeping its position), otherwise appends at the end. -/
def dictSet : List (String × Val) → String → Val → List (String × Val)
  | [], k, v => [(k, v)]
  | (k', v') :: rest, k, v =>
    if k' == k then (k, v) :: rest else (k', v') :: dictSet rest k v

/-- Error kinds escaping the HTTP/1.x decoder: `ProtocolError` raised by the
decoder itself, and `ValueError` raised by `int()`. -/
inductive HTTPErr where
  | protocolError (msg : String)
  | valueError
deriving Repr

/-- Classification block of `HTTPv1._read_http_header` (the `match1..match4`
tests over the three start-line fields): returns the receipt together with
the initial header dictionary holding the classified start line. -/
def classifyParas (para1 para2 para3 : List Char) :
    Except HTTPErr (String × List (String × Val)) :=
  let match1 := matchMethod para1
  let match2 := matchVersion para3
  let match3 := matchVersion para1
  let match4 := matchStatus para2
  if match1 && match2.isSome then
    .ok ("request", [("request", Val.node [
      ("method", Val.str (String.mk para1)),
      ("target", Val.str (String.mk para2)),
      ("version", Val.str (String.mk (match2.getD [])))])])
  else if match3.isSome && match4 then
    match pyInt para2 with
    | some n => .ok ("response", [("response", Val.node [
        ("version", Val.str (String.mk (match3.getD []))),
        ("status", Val.int n),
        ("phrase", Val.str (String.mk para3))])])
    | none => .error HTTPErr.valueError
  else
    .error (HTTPErr.protocolError "HTTP: invalid format")

/-- Split at the first `:` of a header-field line, colon removed; `none` when
the line has no colon (indexing `item[1]` then raises `IndexError`). -/
def breakColon : List Char → Option (List Char × List Char)
  | [] => none
  | c :: cs =>
    if c == ':' then some ([], cs)
    else (breakColon cs).map (fun p => (c :: p.1, p.2))

/-- Drop a trailing whitespace run. -/
def dropTrailingWS (s : List Char) : List Char :=
  (s.reverse.dropWhile isSpace).reverse

/-- Python's `re.split(b'\s*:\s*', field, 1)`: the leftmost match of the
pattern is the whitespace run adjacent to the first colon, the colon itself,
and the whitespace run after it; both runs are consumed by the split. -/
def splitColon1 (field : List Char) : Option (List Char × List Char) :=
  (breakColon field).map (fun p => (dropTrailingWS p.1, p.2.dropWhile isSpace))

/-- Python's `str.replace(pat, rep)` (all non-overlapping occurrences, left to
right), with explicit fuel for structural recursion; `strReplace` supplies
fuel of at least the string length, so the fuel never runs out. -/
def strReplaceGo (pat rep : List Char) : Nat → List Char → List Char
  | _, [] => []
  | 0, s => s
  | fuel + 1, c :: cs =>
    if pat.isPrefixOf (c :: cs) && !pat.isEmpty then
      rep ++ strReplaceGo pat rep fuel ((c :: cs).drop pat.length)
    else
      c :: strReplaceGo pat rep fuel cs

/-- Python's `s.replace(pat, rep)` for nonempty `pat`. -/
def strReplace (pat rep s : List Char) : List Char :=
  strReplaceGo pat rep s.length s

/-- Key transformation of `HTTPv1._read_http_header` on a header field name:
`item[0].decode().strip().replace('request', 'request_field')
.replace('response', 'response_field')`. -/
def headerFieldKey (k : List Char) : List Char :=
  strReplace ("response".toList) ("response_field".toList)
    (strReplace ("request".toList) ("request_field".toList) (strip k))

/-- Header-field loop of `HTTPv1._read_http_header`: each CRLF-separated
field is split at its first colon; a colon-less field raises `IndexError`,
re-raised as `ProtocolError`; repeated keys accumulate into tuples. -/
def processFields :
    List (List Char) → List (String × Val) → Except HTTPErr (List (String × Val))
  | [], header => .ok header
  | field :: rest, header =>
    match splitColon1 field with
    | none => .error (HTTPErr.protocolError "HTTP: invalid format")
    | some (k, v) =>
      let key := String.mk (headerFieldKey k)
      let value := String.mk (strip v)
      let header' :=
        match dictLookup header key with
        | some (Val.seq vs) => dictSet header key (Val.seq (vs ++ [Val.str value]))
        | some old => dictSet header key (Val.seq [old, Val.str value])
        | none => dictSet header key (Val.str value)
      processFields rest header'

/-- CRLF. -/
def crlf : List Char := ['\r', '\n']

/-- The four-octet header/body separator CRLFCRLF. -/
def crlf2 : List Char := ['\r', '\n', '\r', '\n']

/-- Embedding of `HTTPv1._read_http_header`: split the header block into start line and
field block, tokenize the start line into three whitespace-separated fields,
classify, then parse the header fields. -/
def read_http_header (header : List Char) :
    Except HTTPErr (List (String × Val) × String) :=
  match splitOnceAt crlf header with
  | none => .error (HTTPErr.protocolError "HTTP: invalid format")
  | some (startline, headerfield) =>
    match splitWS2 startline with
    | none => .error (HTTPErr.protocolError "HTTP: invalid format")
    | some (para1, para2, para3) =>
      let fields := splitCRLF headerfield
      match classifyParas para1 para2 para3 with
      | .error e => .error e
      | .ok (receipt, header0) =>
        match processFields fields header0 with
        | .error e => .error e
        | .ok h => .ok (h, receipt)

/-- Embedding of `HTTPv1._read_http_body`: `chardet.detect` and codec lookup are external
collaborators, passed in as parameters `detect` and `decodeW`; a detected
charset whose decode fails (`UnicodeDecodeError`) keeps the raw bytes, no
detected charset falls through to Python `None`. -/
def read_http_body (detect : List Char → Option String)
    (decodeW : String → List Char → Option String) (body : List Char) :
    Option Val :=
  match detect body with
  | some charset =>
    match decodeW charset body with
    | some text => some (Val.str text)
    | none => some (Val.bytes body)
  | none => none

/-- Python truthiness on decoded values, for `self._read_http_body(body) or
None`. -/
def pyTruthy : Val → Bool
  | Val.str s => !(s == "")
  | Val.bytes b => !b.isEmpty
  | Val.int n => !(n == 0)
  | Val.node m => !m.isEmpty
  | Val.seq vs => !vs.isEmpty
  | Val.null => false

/-- Python's `x or None`: keep `x` when truthy, else `None`. -/
def orNone : Option Val → Val
  | none => Val.null
  | some v => if pyTruthy v then v else Val.null

/-- Embedding of `HTTPv1.read_http`: split the payload at the first CRLFCRLF (absence
raises `ProtocolError`), parse the header block, convert the body, and emit
the `receipt`/`header`/`body` dictionary. -/
def read_http (detect : List Char → Option String)
    (decodeW : String → List Char → Option String) (packet : List Char) :
    Except HTTPErr (List (String × Val)) :=
  match splitOnceAt crlf2 packet with
  | none => .error (HTTPErr.protocolError "HTTP: invalid format")
  | some (header, body) =>
    match read_http_header header with
    | .error e => .error e
    | .ok (hu, receipt) =>
      .ok [("receipt", Val.str receipt),
           ("header", Val.node hu),
           ("body", orNone (read_http_body detect decodeW body))]

/-- Modelled from the spec: the byte cursor's `read(n)` (§4.1) — the
`Protocol._read_fileng` helper is not under `src/`.  Returns exactly `n`
octets and the rest of the buffer, or `none` when fewer remain. -/
def takeBytes (n : Nat) (s : List Nat) : Option (List Nat × List Nat) :=
  if n ≤ s.length then some (s.take n, s.drop n) else none

/-- Modelled from the spec: the byte cursor's `read_uint(n)` (§4.1) — the
`Protocol._read_unpack` helper is not under `src/`.  Big-endian unsigned
integer of the next `n` octets. -/
def readUnpack (n : Nat) (s : List Nat) : Option (Nat × List Nat) :=
  (takeBytes n s).map (fun p => (p.1.foldl (fun acc b => acc * 256 + b) 0, p.2))

/-- Lowercase hex digit of a value below 16. -/
def hexDigit (n : Nat) : Char :=
  if n < 10 then Char.ofNat (48 + n) else Char.ofNat (87 + n)

/-- Two lowercase hex digits of one byte (Python `bytes.hex()` per octet). -/
def byteHex (b : Nat) : String :=
  String.mk [hexDigit (b / 16 % 16), hexDigit (b % 16)]

/-- Python's `':'.join(textwrap.wrap(_byte.hex(), 2))`: colon-joined lowercase hex
octets. -/
def macHex (bs : List Nat) : String :=
  String.intercalate ":" (bs.map byteHex)

/-- Hardware address as emitted by `ARP._read_addr_resolve`: either the
colon-joined hex text or raw bytes. -/
inductive HwAddr where
  | hex (s : String)
  | bytes (bs : List Nat)
deriving Repr, DecidableEq

/-- Protocol address as emitted by `ARP._read_proto_resolve`: an
`ipaddress.IPv4Address` (carrying its four octets), an `IPv6Address`
(sixteen octets), or raw bytes. -/
inductive ProtoAddr where
  | ipv4 (bs : List Nat)
  | ipv6 (bs : List Nat)
  | bytes (bs : List Nat)
deriving Repr, DecidableEq

/-- Embedding of `ARP._read_addr_resolve(length, htype)`: when `htype == 1` it reads six
octets and renders them as colon-joined lowercase hex, otherwise it reads
`length` octets raw. -/
def read_addr_resolve (length htype : Nat) (s : List Nat) :
    Option (HwAddr × List Nat) :=
  if htype = 1 then
    (takeBytes 6 s).map (fun p => (HwAddr.hex (macHex p.1), p.2))
  else
    (takeBytes length s).map (fun p => (HwAddr.bytes p.1, p.2))

/-- Embedding of `ARP._read_proto_resolve(length, ptype)`: four octets as an IPv4 address
when `ptype == 0x0800`, sixteen octets as an IPv6 address when
`ptype == 0x86dd`, otherwise `length` raw octets. -/
def read_proto_resolve (length ptype : Nat) (s : List Nat) :
    Option (ProtoAddr × List Nat) :=
  if ptype = 0x0800 then
    (takeBytes 4 s).map (fun p => (ProtoAddr.ipv4 p.1, p.2))
  else if ptype = 0x86dd then
    (takeBytes 16 s).map (fun p => (ProtoAddr.ipv6 p.1, p.2))
  else
    (takeBytes length s).map (fun p => (ProtoAddr.bytes p.1, p.2))

/-- Variant selection of `ARP.read_arp` from the operation code: acronym and
long name (`self._acnm`, `self._name`). -/
def arpVariant (oper : Nat) : String × String :=
  if oper = 5 ∨ oper = 6 ∨ oper = 7 then
    ("DRARP", "Dynamic Reverse Address Resolution Protocol")
  else if oper = 8 ∨ oper = 9 then
    ("InARP", "Inverse Address Resolution Protocol")
  else if oper = 3 ∨ oper = 4 then
    ("RARP", "Reverse Address Resolution Protocol")
  else
    ("ARP", "Address Resolution Protocol")

/-- Python's `re.match(r'.*Ethernet.*', name, re.IGNORECASE)` viewed as a
Bool: `.` never matches a newline, so this asks whether `ethernet` occurs
case-insensitively before the first newline of `name`. -/
def matchesEthernetRegex (name : String) : Bool :=
  containsSub ("ethernet".toList)
    ((name.toList.takeWhile (fun c => !(c == '\n'))).map Char.toLower)

/-- The `ptype` emission of `ARP.read_arp`: the EtherType registry is
consulted only when the hardware-type name matches the Ethernet regex,
otherwise the text `Unknown [<value>]` is emitted.  `hrdGet` and `ethGet`
stand for the `HRD.get` / `ETHERTYPE.get` registry lookups (registry data is
not under `src/`). -/
def ptype_resolve (hrdGet ethGet : Nat → String) (hwty ptty : Nat) : String :=
  if matchesEthernetRegex (hrdGet hwty) then ethGet ptty
  else "Unknown [" ++ toString ptty ++ "]"

/-- Decoded ARP info record (the dict built by `ARP.read_arp`, up to the
trailing `packet` field, which depends on the out-of-scope payload reader). -/
structure ARPInfo where
  htype : String
  ptype : String
  hlen : Nat
  plen : Nat
  oper : String
  sha : HwAddr
  spa : ProtoAddr
  tha : HwAddr
  tpa : ProtoAddr
  len : Nat
deriving Repr, DecidableEq

/-- Result of `ARP.read_arp`: the variant acronym and long name
(`self._acnm`, `self._name`) together with the info record. -/
structure ARPResult where
  acnm : String
  name : String
  info : ARPInfo
deriving Repr, DecidableEq

/-- Embedding of `ARP.read_arp`: fixed eight-octet prefix, four variable-length
addresses, variant selection by operation code, and the emitted dict.
`hrdGet`, `ethGet`, `operGet` stand for the `HRD.get`, `ETHERTYPE.get` and
`OPER.get` registry lookups. -/
def read_arp (hrdGet ethGet operGet : Nat → String) (s : List Nat) :
    Option (ARPResult × List Nat) :=
  match readUnpack 2 s with
  | none => none
  | some (hwty, s1) =>
  match readUnpack 2 s1 with
  | none => none
  | some (ptty, s2) =>
  match readUnpack 1 s2 with
  | none => none
  | some (hlen, s3) =>
  match readUnpack 1 s3 with
  | none => none
  | some (plen, s4) =>
  match readUnpack 2 s4 with
  | none => none
  | some (oper, s5) =>
  match read_addr_resolve hlen hwty s5 with
  | none => none
  | some (shwa, s6) =>
  match read_proto_resolve plen ptty s6 with
  | none => none
  | some (spta, s7) =>
  match read_addr_resolve hlen hwty s7 with
  | none => none
  | some (thwa, s8) =>
  match read_proto_resolve plen ptty s8 with
  | none => none
  | some (tpta, s9) =>
    some ({ acnm := (arpVariant oper).1,
            name := (arpVariant oper).2,
            info := { htype := hrdGet hwty,
                      ptype := ptype_resolve hrdGet ethGet hwty ptty,
                      hlen := hlen, plen := plen,
                      oper := operGet oper,
                      sha := shwa, spa := spta, tha := thwa, tpa := tpta,
                      len := 8 + hlen * 2 + plen * 2 } }, s9)

/-- Result of `Internet._import_next_layer` (dev `jspcap` tree): either the
named next-layer extractor is invoked on the remaining stream, or — for any
protocol name outside the five known ones — the whole remaining stream is
read as opaque data (`self._file.read() or None`) and no further protocol
chain is produced. -/
inductive NextLayerResult where
  | dispatch (proto : String)
  | raw (payload : Option (List Nat))
deriving Repr, DecidableEq

/-- Embedding of `Internet._import_next_layer(proto)` over the remaining bytes of the
stream: the five known names dispatch to their extractors; every other name
consumes the remainder as raw data and terminates the chain. -/
def internet_next_layer (proto : String) (remaining : List Nat) :
    NextLayerResult :=
  if proto = "IPv4" then NextLayerResult.dispatch "IPv4"
  else if proto = "IPv6" then NextLayerResult.dispatch "IPv6"
  else if proto = "AH" then NextLayerResult.dispatch "AH"
  else if proto = "TCP" then NextLayerResult.dispatch "TCP"
  else if proto = "UDP" then NextLayerResult.dispatch "UDP"
  else NextLayerResult.raw (if remaining.isEmpty then none else some remaining)

/-- Modelled from the spec: charset detection (the external `chardet`
library, not part of this repository).  §4.8 step 6 only fixes that an empty
body identifies no charset; theorems quantify over the detector and this
stand-in instantiates them. -/
def spec_detect (body : List Char) : Option String :=
  if body.isEmpty then none else some "ascii"

/-- Modelled from the spec: text decoding under a detected charset (external
codec machinery); ASCII payloads decode to themselves. -/
def spec_decode (_charset : String) (body : List Char) : Option String :=
  some (String.mk body)

/-- Top-level info dictionary produced by `read_http` (instantiated with the
stand-in charset collaborators), or `none` on error. -/
def httpTop (s : List Char) : Option (List (String × Val)) :=
  match read_http spec_detect spec_decode s with
  | .ok t => some t
  | .error _ => none

/-- Lookup of a key in the top-level dictionary produced by `read_http`. -/
def httpTopLookup (s : List Char) (k : String) : Option Val :=
  (httpTop s).bind (fun t => dictLookup t k)

/-- Lookup of a key in the header dictionary produced by
`read_http_header`. -/
def httpHeaderLookup (hdr : List Char) (k : String) : Option Val :=
  match read_http_header hdr with
  | .ok (h, _) => dictLookup h k
  | .error _ => none

/-- The S4 payload of the spec:
`GET /index.html HTTP/1.1\r\nHost: example.com\r\nAccept: */*\r\n\r\n`. -/
def s4payload : List Char :=
  "GET /index.html HTTP/1.1\r\nHost: example.com\r\nAccept: */*\r\n\r\n".toList

/-- Stand-in for the `HRD.get` hardware-type registry lookup (registry data
is not under `src/`): every key resolves to the Ethernet-family name. -/
def regH : Nat → String := fun _ => "Ethernet"

/-- Stand-in for a `HRD.get` lookup whose result is not an Ethernet-family
name. -/
def regF : Nat → String := fun _ => "FooBar"

/-- Stand-in for the `ETHERTYPE.get` registry lookup. -/
def regE : Nat → String := fun v => if v = 2048 then "IPv4" else "Unknown"

/-- Stand-in for the `OPER.get` registry lookup. -/
def regO : Nat → String := fun v => if v = 1 then "REQUEST" else "Unknown"

/-- The S1 packet of the spec:
`0001 0800 0604 0001 aabbccddeeff 0a000001 000000000000 0a000002`. -/
def s1input : List Nat :=
  [0x00, 0x01, 0x08, 0x00, 0x06, 0x04, 0x00, 0x01,
   0xaa, 0xbb, 0xcc, 0xdd, 0xee, 0xff, 10, 0, 0, 1,
   0, 0, 0, 0, 0, 0, 10, 0, 0, 2]

/-- The record `read_arp` produces for the S1 packet under the stand-in
registries. -/
def arpS1 : ARPResult :=
  { acnm := "ARP", name := "Address Resolution Protocol",
    info := { htype := "Ethernet", ptype := "IPv4", hlen := 6, plen := 4,
              oper := "REQUEST", sha := HwAddr.hex "aa:bb:cc:dd:ee:ff",
              spa := ProtoAddr.ipv4 [10, 0, 0, 1],
              tha := HwAddr.hex "00:00:00:00:00:00",
              tpa := ProtoAddr.ipv4 [10, 0, 0, 2], len := 28 } }

/-- The receipt of a classification result: `request`/`response` on success,
`none` on error. -/
def receiptOf : Except HTTPErr (String × List (String × Val)) → Option String
  | .ok (r, _) => some r
  | .error _ => none

theorem takeBytes_some {n : Nat} {s b r : List Nat}
    (h : takeBytes n s = some (b, r)) :
    n ≤ s.length ∧ b = s.take n ∧ r = s.drop n := by
  unfold takeBytes at h
  split at h
  · simp only [Option.some.injEq, Prod.mk.injEq] at h
    exact ⟨by assumption, h.1.symm, h.2.symm⟩
  · exact absurd h (by simp)

theorem readUnpack_some {n : Nat} {s : List Nat} {v : Nat} {r : List Nat}
    (h : readUnpack n s = some (v, r)) : r = s.drop n ∧ n ≤ s.length := by
  unfold readUnpack at h
  cases ht : takeBytes n s with
  | none => rw [ht] at h; exact absurd h (by simp)
  | some p =>
    rw [ht] at h
    simp only [Option.map_some', Option.some.injEq] at h
    obtain ⟨hl, -, hr⟩ := takeBytes_some ht
    have h2 : p.2 = r := congrArg Prod.snd h
    exact ⟨by rw [← h2, hr], hl⟩

theorem splitOnceAt_eq_none {sep : List Char} :
    ∀ {s : List Char}, containsSub sep s = false → splitOnceAt sep s = none := by
  intro s
  induction s with
  | nil =>
    intro h
    unfold containsSub at h
    unfold splitOnceAt
    simp_all
  | cons c cs ih =>
    intro h
    unfold containsSub at h
    simp only [Bool.or_eq_false_iff] at h
    unfold splitOnceAt
    rw [h.1]
    simp [ih h.2]

theorem breakColon_eq_none : ∀ {f : List Char}, ':' ∉ f → breakColon f = none := by
  intro f
  induction f with
  | nil => intro _; rfl
  | cons c cs ih =>
    intro h
    unfold breakColon
    have hc : (c == ':') = false := by
      simp only [List.mem_cons, not_or] at h
      simp [Ne.symm h.1]
    rw [hc]
    simp only [Bool.false_eq_true, if_false]
    rw [ih (fun hm => h (List.mem_cons_of_mem c hm))]
    rfl

theorem splitColon1_eq_none {f : List Char} (h : ':' ∉ f) :
    splitColon1 f = none := by
  unfold splitColon1
  rw [breakColon_eq_none h]
  rfl

theorem processFields_error :
    ∀ (fields : List (List Char)) (header0 : List (String × Val))
      (f : List Char), f ∈ fields → splitColon1 f = none →
      processFields fields header0 =
        .error (HTTPErr.protocolError "HTTP: invalid format") := by
  intro fields
  induction fields with
  | nil => intro _ f hf _; exact absurd hf (List.not_mem_nil f)
  | cons g rest ih =>
    intro header0 f hf hc
    unfold processFields
    rcases List.mem_cons.mp hf with hfg | hfr
    · rw [← hfg, hc]
    · cases hg : splitColon1 g with
      | none => rfl
      | some p => exact ih _ f hfr hc

theorem strReplaceGo_id {pat rep : List Char} :
    ∀ (s : List Char) (fuel : Nat), containsSub pat s = false →
      strReplaceGo pat rep fuel s = s := by
  intro s
  induction s with
  | nil => intro fuel _; cases fuel <;> rfl
  | cons c cs ih =>
    intro fuel h
    unfold containsSub at h
    simp only [Bool.or_eq_false_iff] at h
    cases fuel with
    | zero => rfl
    | succ fuel =>
      unfold strReplaceGo
      rw [h.1]
      simp only [Bool.false_and, Bool.false_eq_true, if_false]
      rw [ih fuel h.2]

theorem strReplace_id {pat rep s : List Char} (h : containsSub pat s = false) :
    strReplace pat rep s = s :=
  strReplaceGo_id s s.length h

theorem read_arp_inv {hg eg og : Nat → String} {s : List Nat} {r : ARPResult}
    {rest : List Nat} (h : read_arp hg eg og s = some (r, rest)) :
    ∃ hwty ptty hlen plen oper s5,
      readUnpack 2 s = some (hwty, s.drop 2) ∧
      readUnpack 2 (s.drop 2) = some (ptty, s.drop 4) ∧
      readUnpack 1 (s.drop 4) = some (hlen, s.drop 5) ∧
      readUnpack 1 (s.drop 5) = some (plen, s.drop 6) ∧
      readUnpack 2 (s.drop 6) = some (oper, s5) ∧
      r.acnm = (arpVariant oper).1 ∧ r.name = (arpVariant oper).2 ∧
      r.info.htype = hg hwty ∧
      r.info.ptype = ptype_resolve hg eg hwty ptty ∧
      r.info.hlen = hlen ∧ r.info.plen = plen ∧
      r.info.len = 8 + hlen * 2 + plen * 2 := by
  unfold read_arp at h
  repeat' split at h
  all_goals try exact Option.noConfusion h
  rename_i _ hwty s1 h1 _ ptty s2 h2 _ hlen s3 h3 _ plen s4 h4 _ oper s5 h5 _ shwa s6 h6 _ spta s7 h7 _ thwa s8 h8 _ tpta s9 h9
  injection h with hpair
  rw [Prod.mk.injEq] at hpair
  obtain ⟨hr, -⟩ := hpair
  have e1 : s1 = s.drop 2 := (readUnpack_some h1).1
  have e2 : s2 = s.drop 4 := by rw [(readUnpack_some h2).1, e1, List.drop_drop]
  have e3 : s3 = s.drop 5 := by rw [(readUnpack_some h3).1, e2, List.drop_drop]
  have e4 : s4 = s.drop 6 := by rw [(readUnpack_some h4).1, e3, List.drop_drop]
  refine ⟨hwty, ptty, hlen, plen, oper, s5, ?_, ?_, ?_, ?_, ?_, ?_, ?_, ?_, ?_, ?_, ?_, ?_⟩
  · rw [← e1]; exact h1
  · rw [← e1, ← e2]; exact h2
  · rw [← e2, ← e3]; exact h3
  · rw [← e3, ← e4]; exact h4
  · rw [← e4]; exact h5
  · rw [← hr]
  · rw [← hr]
  · rw [← hr]
  · rw [← hr]
  · rw [← hr]
  · rw [← hr]
  · rw [← hr]

/-- C7: the ARP decoder selects the protocol variant purely from the
operation code — DRARP for 5/6/7, InARP for 8/9, RARP for 3/4, and plain ARP
for every other value; in particular `oper = 8` yields the InARP names, and
a successful `read_arp` carries exactly the variant of the oper field read
at offset 6. -/
theorem arp_variant_selection :
    (∀ oper : Nat,
      ((oper = 5 ∨ oper = 6 ∨ oper = 7) →
        arpVariant oper = ("DRARP", "Dynamic Reverse Address Resolution Protocol")) ∧
      ((oper = 8 ∨ oper = 9) →
        arpVariant oper = ("InARP", "Inverse Address Resolution Protocol")) ∧
      ((oper = 3 ∨ oper = 4) →
        arpVariant oper = ("RARP", "Reverse Address Resolution Protocol")) ∧
      (¬(3 ≤ oper ∧ oper ≤ 9) →
        arpVariant oper = ("ARP", "Address Resolution Protocol"))) ∧
    arpVariant 8 = ("InARP", "Inverse Address Resolution Protocol") ∧
    (∀ (hg eg og : Nat → String) (s : List Nat) (r : ARPResult)
       (rest : List Nat), read_arp hg eg og s = some (r, rest) →
      ∃ oper s5, readUnpack 2 (s.drop 6) = some (oper, s5) ∧
        r.acnm = (arpVariant oper).1 ∧ r.name = (arpVariant oper).2) := by
  refine ⟨?_, rfl, ?_⟩
  · intro oper
    refine ⟨?_, ?_, ?_, ?_⟩
    · rintro (h | h | h) <;> subst h <;> rfl
    · rintro (h | h) <;> subst h <;> rfl
    · rintro (h | h) <;> subst h <;> rfl
    · intro h
      unfold arpVariant
      rw [if_neg (by omega), if_neg (by omega), if_neg (by omega)]
  · intro hg eg og s r rest h
    obtain ⟨_, _, _, _, oper, s5, -, -, -, -, h5, ha, hn, -, -, -, -, -⟩ :=
      read_arp_inv h
    exact ⟨oper, s5, h5, ha, hn⟩

theorem arp_variant_selection_witness :
    arpVariant 5 = ("DRARP", "Dynamic Reverse Address Resolution Protocol") ∧
    arpVariant 9 = ("InARP", "Inverse Address Resolution Protocol") ∧
    arpVariant 3 = ("RARP", "Reverse Address Resolution Protocol") ∧
    arpVariant 2 = ("ARP", "Address Resolution Protocol") ∧
    arpS1.acnm = "ARP" := by
  refine ⟨(arp_variant_selection.1 5).1 (Or.inl rfl),
          (arp_variant_selection.1 9).2.1 (Or.inr rfl),
          (arp_variant_selection.1 3).2.2.1 (Or.inl rfl),
          (arp_variant_selection.1 2).2.2.2 (by omega), ?_⟩
  obtain ⟨oper, s5, h5, ha, -⟩ :=
    arp_variant_selection.2.2 regH regE regO s1input arpS1 [] rfl
  have hc : readUnpack 2 (s1input.drop 6) = some (1, s1input.drop 8) := rfl
  rw [hc] at h5
  injection h5 with hp
  rw [Prod.mk.injEq] at hp
  rw [ha, ← hp.1]
  rfl

/-- C9: every successfully decoded ARP record has
`len = 8 + 2*hlen + 2*plen`, and on the S1 bytes the record has `hlen = 6`,
`plen = 4` and `len = 28` for any registry contents. -/
theorem arp_len_equation :
    (∀ (hg eg og : Nat → String) (s : List Nat) (r : ARPResult)
       (rest : List Nat), read_arp hg eg og s = some (r, rest) →
      r.info.len = 8 + 2 * r.info.hlen + 2 * r.info.plen) ∧
    (∀ hg eg og : Nat → String,
      (read_arp hg eg og s1input).map
        (fun p => (p.1.info.hlen, p.1.info.plen, p.1.info.len)) =
        some ((6, 4, 28) : Nat × Nat × Nat)) := by
  constructor
  · intro hg eg og s r rest h
    obtain ⟨_, _, hlen, plen, _, _, -, -, -, -, -, -, -, -, -, hh, hp, hl⟩ :=
      read_arp_inv h
    rw [hl, hh, hp]
    ring
  · intro hg eg og
    rfl

theorem arp_len_equation_witness :
    read_arp regH regE regO s1input = some (arpS1, []) ∧
    arpS1.info.len = 8 + 2 * arpS1.info.hlen + 2 * arpS1.info.plen :=
  ⟨rfl, arp_len_equation.1 regH regE regO s1input arpS1 [] rfl⟩

/-- C8: the `ptype` field emitted by `read_arp` is
`Unknown [<value>]` whenever the hardware-type name fails the Ethernet-family
regex, irrespective of the EtherType registry contents, and is the EtherType
registry entry when the name matches. -/
theorem arp_ptype_unknown :
    (∀ (hg eg : Nat → String) (hwty ptty : Nat),
      matchesEthernetRegex (hg hwty) = false →
      ptype_resolve hg eg hwty ptty = "Unknown [" ++ toString ptty ++ "]") ∧
    (∀ (hg eg : Nat → String) (hwty ptty : Nat),
      matchesEthernetRegex (hg hwty) = true →
      ptype_resolve hg eg hwty ptty = eg ptty) ∧
    (∀ (hg eg og : Nat → String) (s : List Nat) (r : ARPResult)
       (rest : List Nat), read_arp hg eg og s = some (r, rest) →
      ∃ hwty ptty, readUnpack 2 s = some (hwty, s.drop 2) ∧
        readUnpack 2 (s.drop 2) = some (ptty, s.drop 4) ∧
        r.info.htype = hg hwty ∧
        r.info.ptype = ptype_resolve hg eg hwty ptty) := by
  refine ⟨?_, ?_, ?_⟩
  · intro hg eg hwty ptty h
    simp [ptype_resolve, h]
  · intro hg eg hwty ptty h
    simp [ptype_resolve, h]
  · intro hg eg og s r rest h
    obtain ⟨hwty, ptty, _, _, _, _, c1, c2, -, -, -, -, -, ch, cp, -, -, -⟩ :=
      read_arp_inv h
    exact ⟨hwty, ptty, c1, c2, ch, cp⟩

theorem arp_ptype_unknown_witness :
    ptype_resolve regF regE 0 2048 = "Unknown [" ++ toString 2048 ++ "]" ∧
    ptype_resolve regH regE 1 2048 = regE 2048 ∧
    arpS1.info.ptype = ptype_resolve regH regE 1 2048 := by
  refine ⟨arp_ptype_unknown.1 regF regE 0 2048 rfl,
          arp_ptype_unknown.2.1 regH regE 1 2048 rfl, ?_⟩
  obtain ⟨hwty, ptty, c1, c2, -, cp⟩ :=
    arp_ptype_unknown.2.2 regH regE regO s1input arpS1 [] rfl
  have k1 : readUnpack 2 s1input = some (1, s1input.drop 2) := rfl
  rw [k1] at c1
  injection c1 with c1p
  rw [Prod.mk.injEq] at c1p
  have k2 : readUnpack 2 (s1input.drop 2) = some (2048, s1input.drop 4) := rfl
  rw [k2] at c2
  injection c2 with c2p
  rw [Prod.mk.injEq] at c2p
  rw [cp, ← c1p.1, ← c2p.1]

/-- C2 fails on the code: with `htype = 1` and a declared hardware length of
8, `read_addr_resolve` still reads only six octets and renders them as
colon-joined hex, instead of reading eight octets raw. -/
theorem addr_resolve_hlen8_cex :
    read_addr_resolve 8 1 [0xaa, 0xbb, 0xcc, 0xdd, 0xee, 0xff, 0x01, 0x02] =
      some (HwAddr.hex "aa:bb:cc:dd:ee:ff", [0x01, 0x02]) := rfl

/-- C2 amended: the hardware address is rendered as colon-joined lowercase
hex (always reading six octets) exactly when `htype = 1`, regardless of
`hlen`; otherwise `hlen` octets are read raw.  The protocol address is an
IPv4 address (four octets) exactly when `ptype = 0x0800` regardless of
`plen`, an IPv6 address (sixteen octets) exactly when `ptype = 0x86dd`, and
`plen` raw octets otherwise. -/
theorem addr_proto_rendering :
    (∀ (len : Nat) (s : List Nat) (a : HwAddr) (rest : List Nat),
      read_addr_resolve len 1 s = some (a, rest) →
      a = HwAddr.hex (macHex (s.take 6)) ∧ rest = s.drop 6) ∧
    (∀ (len htype : Nat) (s : List Nat) (a : HwAddr) (rest : List Nat),
      htype ≠ 1 → read_addr_resolve len htype s = some (a, rest) →
      a = HwAddr.bytes (s.take len) ∧ rest = s.drop len) ∧
    (∀ (len : Nat) (s : List Nat) (a : ProtoAddr) (rest : List Nat),
      read_proto_resolve len 0x0800 s = some (a, rest) →
      a = ProtoAddr.ipv4 (s.take 4) ∧ rest = s.drop 4) ∧
    (∀ (len : Nat) (s : List Nat) (a : ProtoAddr) (rest : List Nat),
      read_proto_resolve len 0x86dd s = some (a, rest) →
      a = ProtoAddr.ipv6 (s.take 16) ∧ rest = s.drop 16) ∧
    (∀ (len ptype : Nat) (s : List Nat) (a : ProtoAddr) (rest : List Nat),
      ptype ≠ 0x0800 → ptype ≠ 0x86dd →
      read_proto_resolve len ptype s = some (a, rest) →
      a = ProtoAddr.bytes (s.take len) ∧ rest = s.drop len) := by
  refine ⟨?_, ?_, ?_, ?_, ?_⟩
  · intro len s a rest h
    unfold read_addr_resolve at h
    rw [if_pos rfl] at h
    cases ht : takeBytes 6 s with
    | none => rw [ht] at h; exact Option.noConfusion h
    | some p =>
      rw [ht] at h
      simp only [Option.map_some', Option.some.injEq, Prod.mk.injEq] at h
      obtain ⟨-, hb, hr⟩ := takeBytes_some ht
      exact ⟨by rw [← h.1, hb], by rw [← h.2, hr]⟩
  · intro len htype s a rest hne h
    unfold read_addr_resolve at h
    rw [if_neg hne] at h
    cases ht : takeBytes len s with
    | none => rw [ht] at h; exact Option.noConfusion h
    | some p =>
      rw [ht] at h
      simp only [Option.map_some', Option.some.injEq, Prod.mk.injEq] at h
      obtain ⟨-, hb, hr⟩ := takeBytes_some ht
      exact ⟨by rw [← h.1, hb], by rw [← h.2, hr]⟩
  · intro len s a rest h
    unfold read_proto_resolve at h
    rw [if_pos rfl] at h
    cases ht : takeBytes 4 s with
    | none => rw [ht] at h; exact Option.noConfusion h
    | some p =>
      rw [ht] at h
      simp only [Option.map_some', Option.some.injEq, Prod.mk.injEq] at h
      obtain ⟨-, hb, hr⟩ := takeBytes_some ht
      exact ⟨by rw [← h.1, hb], by rw [← h.2, hr]⟩
  · intro len s a rest h
    unfold read_proto_resolve at h
    rw [if_neg (by omega), if_pos rfl] at h
    cases ht : takeBytes 16 s with
    | none => rw [ht] at h; exact Option.noConfusion h
    | some p =>
      rw [ht] at h
      simp only [Option.map_some', Option.some.injEq, Prod.mk.injEq] at h
      obtain ⟨-, hb, hr⟩ := takeBytes_some ht
      exact ⟨by rw [← h.1, hb], by rw [← h.2, hr]⟩
  · intro len ptype s a rest hne1 hne2 h
    unfold read_proto_resolve at h
    rw [if_neg hne1, if_neg hne2] at h
    cases ht : takeBytes len s with
    | none => rw [ht] at h; exact Option.noConfusion h
    | some p =>
      rw [ht] at h
      simp only [Option.map_some', Option.some.injEq, Prod.mk.injEq] at h
      obtain ⟨-, hb, hr⟩ := takeBytes_some ht
      exact ⟨by rw [← h.1, hb], by rw [← h.2, hr]⟩

theorem addr_proto_rendering_witness :
    HwAddr.hex "aa:bb:cc:dd:ee:ff" =
      HwAddr.hex (macHex ([0xaa, 0xbb, 0xcc, 0xdd, 0xee, 0xff, 0x01, 0x02].take 6)) ∧
    HwAddr.bytes [0x01, 0x02] = HwAddr.bytes ([0x01, 0x02, 0x03].take 2) ∧
    ProtoAddr.ipv4 [10, 0, 0, 1] = ProtoAddr.ipv4 ([10, 0, 0, 1].take 4) ∧
    ProtoAddr.bytes [7] = ProtoAddr.bytes ([7, 8].take 1) :=
  ⟨(addr_proto_rendering.1 8 [0xaa, 0xbb, 0xcc, 0xdd, 0xee, 0xff, 0x01, 0x02]
      (HwAddr.hex "aa:bb:cc:dd:ee:ff") [0x01, 0x02] rfl).1,
   (addr_proto_rendering.2.1 2 6 [0x01, 0x02, 0x03]
      (HwAddr.bytes [0x01, 0x02]) [0x03] (by omega) rfl).1,
   (addr_proto_rendering.2.2.1 9 [10, 0, 0, 1]
      (ProtoAddr.ipv4 [10, 0, 0, 1]) [] rfl).1,
   (addr_proto_rendering.2.2.2.2 1 5 [7, 8]
      (ProtoAddr.bytes [7]) [8] (by omega) (by omega) rfl).1⟩

/-- C5: at the internet layer, any next-protocol name outside IPv4, IPv6,
AH, TCP and UDP does not fail: the whole remaining stream is consumed as a
single opaque payload and no further protocol is dispatched. -/
theorem internet_raw_fallback :
    ∀ (proto : String) (remaining : List Nat),
      proto ∉ (["IPv4", "IPv6", "AH", "TCP", "UDP"] : List String) →
      internet_next_layer proto remaining =
        NextLayerResult.raw (if remaining.isEmpty then none else some remaining) ∧
      (remaining ≠ [] →
        internet_next_layer proto remaining = NextLayerResult.raw (some remaining)) ∧
      (∀ p, internet_next_layer proto remaining ≠ NextLayerResult.dispatch p) := by
  intro proto remaining h
  simp only [List.mem_cons, List.not_mem_nil, or_false, not_or] at h
  obtain ⟨n1, n2, n3, n4, n5⟩ := h
  unfold internet_next_layer
  rw [if_neg n1, if_neg n2, if_neg n3, if_neg n4, if_neg n5]
  refine ⟨rfl, ?_, ?_⟩
  · intro hne
    rw [if_neg (by simp [List.isEmpty_iff, hne])]
  · intro p
    cases hre : remaining.isEmpty <;> simp

theorem internet_raw_fallback_witness :
    internet_next_layer "ICMP" [1, 2, 3] = NextLayerResult.raw (some [1, 2, 3]) :=
  (internet_raw_fallback "ICMP" [1, 2, 3] (by decide)).2.1 (by decide)

/-- C4: the HTTP/1.x decoder raises `ProtocolError('HTTP: invalid format')`
(the MalformedHeader kind) when the payload has no CRLFCRLF separator, when
the start line matches neither the request nor the response form, and in
particular on the payload `FOO BAR BAZ\r\n\r\n`. -/
theorem http_malformed_errors :
    (∀ (detect : List Char → Option String)
       (decodeW : String → List Char → Option String) (packet : List Char),
      containsSub crlf2 packet = false →
      read_http detect decodeW packet =
        .error (HTTPErr.protocolError "HTTP: invalid format")) ∧
    (∀ para1 para2 para3 : List Char,
      (matchMethod para1 && (matchVersion para3).isSome) = false →
      ((matchVersion para1).isSome && matchStatus para2) = false →
      classifyParas para1 para2 para3 =
        .error (HTTPErr.protocolError "HTTP: invalid format")) ∧
    (∀ (detect : List Char → Option String)
       (decodeW : String → List Char → Option String),
      read_http detect decodeW ("FOO BAR BAZ\r\n\r\n".toList) =
        .error (HTTPErr.protocolError "HTTP: invalid format")) := by
  refine ⟨?_, ?_, ?_⟩
  · intro detect decodeW packet h
    unfold read_http
    rw [splitOnceAt_eq_none h]
  · intro p1 p2 p3 h1 h2
    simp [classifyParas, h1, h2]
  · intro detect decodeW
    rfl

theorem http_malformed_errors_witness :
    read_http spec_detect spec_decode ("HELLO".toList) =
      .error (HTTPErr.protocolError "HTTP: invalid format") ∧
    classifyParas ("FOO".toList) ("BAR".toList) ("BAZ".toList) =
      .error (HTTPErr.protocolError "HTTP: invalid format") :=
  ⟨http_malformed_errors.1 spec_detect spec_decode ("HELLO".toList) rfl,
   http_malformed_errors.2.1 ("FOO".toList) ("BAR".toList) ("BAZ".toList) rfl rfl⟩

/-- C10: whenever the payload splits at CRLFCRLF, the start line tokenizes
and classifies successfully, and some header-field line contains no colon,
`read_http` raises `ProtocolError('HTTP: invalid format')` instead of
emitting a record. -/
theorem http_colonless_field_error :
    ∀ (detect : List Char → Option String)
      (decodeW : String → List Char → Option String)
      (packet hdr body sl hf p1 p2 p3 : List Char)
      (receipt : String) (h0 : List (String × Val)) (f : List Char),
      splitOnceAt crlf2 packet = some (hdr, body) →
      splitOnceAt crlf hdr = some (sl, hf) →
      splitWS2 sl = some (p1, p2, p3) →
      classifyParas p1 p2 p3 = .ok (receipt, h0) →
      f ∈ splitCRLF hf →
      ':' ∉ f →
      read_http detect decodeW packet =
        .error (HTTPErr.protocolError "HTTP: invalid format") := by
  intro detect decodeW packet hdr body sl hf p1 p2 p3 receipt h0 f e1 e2 e3 e4 hm hc
  have hh : read_http_header hdr =
      .error (HTTPErr.protocolError "HTTP: invalid format") := by
    simp only [read_http_header, e2, e3, e4,
      processFields_error (splitCRLF hf) h0 f hm (splitColon1_eq_none hc)]
  simp only [read_http, e1, hh]

theorem http_colonless_field_error_witness :
    read_http spec_detect spec_decode
        ("GET / HTTP/1.1\r\nNoColonHere\r\nHost: a\r\n\r\n".toList) =
      .error (HTTPErr.protocolError "HTTP: invalid format") :=
  http_colonless_field_error spec_detect spec_decode
    ("GET / HTTP/1.1\r\nNoColonHere\r\nHost: a\r\n\r\n".toList)
    ("GET / HTTP/1.1\r\nNoColonHere\r\nHost: a".toList) []
    ("GET / HTTP/1.1".toList) ("NoColonHere\r\nHost: a".toList)
    ("GET".toList) ("/".toList) ("HTTP/1.1".toList)
    "request"
    [("request", Val.node [("method", Val.str "GET"),
                           ("target", Val.str "/"),
                           ("version", Val.str "1.1")])]
    ("NoColonHere".toList)
    rfl rfl rfl rfl (by decide) (by decide)

/-- C3 fails on the code: for the start line `HTTP/1.1 200x OK` the first
field matches `HTTP/<d>.<d>` and the second matches three digits (re.match
is prefix matching), yet the decoder raises an uncaught `ValueError` from
`int('200x')` instead of classifying a response. -/
theorem http_classification_cex :
    (matchVersion ("HTTP/1.1".toList)).isSome = true ∧
    matchStatus ("200x".toList) = true ∧
    matchMethod ("HTTP/1.1".toList) = false ∧
    classifyParas ("HTTP/1.1".toList) ("200x".toList) ("OK".toList) =
      .error HTTPErr.valueError := ⟨rfl, rfl, rfl, rfl⟩

/-- C3 amended: with `re.match` prefix semantics, a start line `A B C` is
classified as a request exactly when `A` prefix-matches a method and `C`
prefix-matches `HTTP/<d>.<d>`; otherwise it is classified as a response
exactly when `A` prefix-matches `HTTP/<d>.<d>`, `B` prefix-matches three
digits, and `B` is additionally a valid Python integer literal — when `B` is
not, the decoder raises an uncaught `ValueError` rather than emitting a
record. -/
theorem http_startline_classification :
    ∀ para1 para2 para3 : List Char,
      ((matchMethod para1 && (matchVersion para3).isSome) = true →
        ∃ g, matchVersion para3 = some g ∧
          classifyParas para1 para2 para3 =
            .ok ("request", [("request", Val.node [
              ("method", Val.str (String.mk para1)),
              ("target", Val.str (String.mk para2)),
              ("version", Val.str (String.mk g))])])) ∧
      ((matchMethod para1 && (matchVersion para3).isSome) = false →
        ((matchVersion para1).isSome && matchStatus para2) = true →
        ((∀ n : Int, pyInt para2 = some n →
          ∃ g, matchVersion para1 = some g ∧
            classifyParas para1 para2 para3 =
              .ok ("response", [("response", Val.node [
                ("version", Val.str (String.mk g)),
                ("status", Val.int n),
                ("phrase", Val.str (String.mk para3))])])) ∧
         (pyInt para2 = none →
          classifyParas para1 para2 para3 = .error HTTPErr.valueError))) ∧
      (receiptOf (classifyParas para1 para2 para3) = some "request" ↔
        (matchMethod para1 && (matchVersion para3).isSome) = true) ∧
      (receiptOf (classifyParas para1 para2 para3) = some "response" ↔
        ((!(matchMethod para1 && (matchVersion para3).isSome)) &&
         ((matchVersion para1).isSome && matchStatus para2) &&
         (pyInt para2).isSome) = true) := by
  intro p1 p2 p3
  refine ⟨?_, ?_, ?_, ?_⟩
  · intro h
    rw [Bool.and_eq_true] at h
    obtain ⟨hm1, hsome⟩ := h
    obtain ⟨g, hg⟩ := Option.isSome_iff_exists.mp hsome
    exact ⟨g, hg, by simp [classifyParas, hm1, hg]⟩
  · intro h1 h2
    constructor
    · intro n hn
      have h2' := h2
      rw [Bool.and_eq_true] at h2'
      obtain ⟨hv1, hst⟩ := h2'
      obtain ⟨g, hg⟩ := Option.isSome_iff_exists.mp hv1
      exact ⟨g, hg, by simp [classifyParas, h1, hst, hn, hg]⟩
    · intro hn
      simp [classifyParas, h1, h2, hn]
  · cases hc1 : (matchMethod p1 && (matchVersion p3).isSome) with
    | true => simp [classifyParas, receiptOf, hc1]
    | false =>
      cases hc2 : ((matchVersion p1).isSome && matchStatus p2) with
      | true =>
        cases hp : pyInt p2 with
        | some n => simp [classifyParas, receiptOf, hc1, hc2, hp]
        | none => simp [classifyParas, receiptOf, hc1, hc2, hp]
      | false => simp [classifyParas, receiptOf, hc1, hc2]
  · cases hc1 : (matchMethod p1 && (matchVersion p3).isSome) with
    | true => simp [classifyParas, receiptOf, hc1]
    | false =>
      cases hc2 : ((matchVersion p1).isSome && matchStatus p2) with
      | true =>
        cases hp : pyInt p2 with
        | some n => simp [classifyParas, receiptOf, hc1, hc2, hp]
        | none => simp [classifyParas, receiptOf, hc1, hc2, hp]
      | false => simp [classifyParas, receiptOf, hc1, hc2]

theorem http_startline_classification_witness :
    classifyParas ("GET".toList) ("/index.html".toList) ("HTTP/1.1".toList) =
      .ok ("request", [("request", Val.node [
        ("method", Val.str "GET"),
        ("target", Val.str "/index.html"),
        ("version", Val.str "1.1")])]) ∧
    classifyParas ("HTTP/1.0".toList) ("200".toList) ("OK".toList) =
      .ok ("response", [("response", Val.node [
        ("version", Val.str "1.0"),
        ("status", Val.int 200),
        ("phrase", Val.str "OK")])]) := by
  constructor
  · obtain ⟨g, hg, hc⟩ :=
      (http_startline_classification ("GET".toList) ("/index.html".toList)
        ("HTTP/1.1".toList)).1 rfl
    have hge : g = "1.1".toList := by
      rw [show matchVersion ("HTTP/1.1".toList) = some ("1.1".toList) from rfl]
        at hg
      exact (Option.some.inj hg).symm
    rw [hge] at hc
    exact hc
  · obtain ⟨hresp, -⟩ :=
      (http_startline_classification ("HTTP/1.0".toList) ("200".toList)
        ("OK".toList)).2.1 rfl rfl
    obtain ⟨g, hg, hc⟩ := hresp 200 rfl
    have hge : g = "1.0".toList := by
      rw [show matchVersion ("HTTP/1.0".toList) = some ("1.0".toList) from rfl]
        at hg
      exact (Option.some.inj hg).symm
    rw [hge] at hc
    exact hc

/-- C1 fails on the code: `read_http` nests the classified start line and
the header fields inside the `header` entry, so the S4 payload decodes
successfully but exposes neither `request` nor `Host` at the top level of
the record. -/
theorem http_s4_not_toplevel_cex :
    (httpTop s4payload).isSome = true ∧
    httpTopLookup s4payload "request" = none ∧
    httpTopLookup s4payload "Host" = none ∧
    httpTopLookup s4payload "receipt" = some (Val.str "request") :=
  ⟨rfl, rfl, rfl, rfl⟩

/-- C1 amended: for the S4 payload the decoder emits
`receipt = "request"` and the null-value for `body` at the top level, while
the classified start line lives at `header.request`
(method/target/version) and the header fields `Host` and `Accept` live
inside `header`. -/
theorem http_s4_structure :
    ∀ (detect : List Char → Option String)
      (decodeW : String → List Char → Option String),
      detect [] = none →
      read_http detect decodeW s4payload =
        .ok [("receipt", Val.str "request"),
             ("header", Val.node [
                ("request", Val.node [("method", Val.str "GET"),
                                      ("target", Val.str "/index.html"),
                                      ("version", Val.str "1.1")]),
                ("Host", Val.str "example.com"),
                ("Accept", Val.str "*/*")]),
             ("body", Val.null)] := by
  intro detect decodeW hdet
  have h1 : read_http detect decodeW s4payload =
      .ok [("receipt", Val.str "request"),
           ("header", Val.node [
              ("request", Val.node [("method", Val.str "GET"),
                                    ("target", Val.str "/index.html"),
                                    ("version", Val.str "1.1")]),
              ("Host", Val.str "example.com"),
              ("Accept", Val.str "*/*")]),
           ("body", orNone (read_http_body detect decodeW []))] := rfl
  rw [h1]
  have h2 : read_http_body detect decodeW [] = none := by
    unfold read_http_body
    rw [hdet]
  rw [h2]
  rfl

theorem http_s4_structure_witness :
    read_http spec_detect spec_decode s4payload =
      .ok [("receipt", Val.str "request"),
           ("header", Val.node [
              ("request", Val.node [("method", Val.str "GET"),
                                    ("target", Val.str "/index.html"),
                                    ("version", Val.str "1.1")]),
              ("Host", Val.str "example.com"),
              ("Accept", Val.str "*/*")]),
           ("body", Val.null)] :=
  http_s4_structure spec_detect spec_decode rfl

/-- C6 fails on the code: the key rename is a substring replacement, so the
header field `x-request-id` is stored under `x-request_field-id` rather than
unchanged under its raw name. -/
theorem http_key_substring_cex :
    httpHeaderLookup ("GET / HTTP/1.1\r\nx-request-id: 1".toList)
        "x-request-id" = none ∧
    httpHeaderLookup ("GET / HTTP/1.1\r\nx-request-id: 1".toList)
        "x-request_field-id" = some (Val.str "1") := ⟨rfl, rfl⟩

/-- C6 amended: header-field keys are transformed by the case-sensitive
substring replacements `request` to `request_field` and then `response` to
`response_field`: keys equal to the literals are renamed as the claim
states, but any key containing the substrings is altered too; a stripped key
containing neither substring is stored unchanged. -/
theorem header_key_rename :
    (∀ k : List Char,
      containsSub ("request".toList) (strip k) = false →
      containsSub ("response".toList) (strip k) = false →
      headerFieldKey k = strip k) ∧
    headerFieldKey ("request".toList) = "request_field".toList ∧
    headerFieldKey ("response".toList) = "response_field".toList ∧
    headerFieldKey ("x-request-id".toList) = "x-request_field-id".toList ∧
    headerFieldKey ("Host".toList) = "Host".toList := by
  refine ⟨?_, rfl, rfl, rfl, rfl⟩
  intro k h1 h2
  unfold headerFieldKey
  rw [strReplace_id h1, strReplace_id h2]

theorem header_key_rename_witness :
    headerFieldKey ("Accept".toList) = strip ("Accept".toList) :=
  header_key_rename.1 ("Accept".toList) rfl rfl
